import Mathlib

/-!
Verification of the geo-filtering core of realor-map-app.

The repository consists of two Streamlit apps, `app.py` (desktop) and
`app.mobile.py` (mobile).  Both load a CSV of land listings, normalise an
area column (tsubo / m²), compute a unit-price column, attach a haversine
distance to a user-chosen center, filter by radius and an area slider, and
sort the result descending by unit price.

Modelling conventions:
* pandas float cells are modelled by `Option ℚ` after `pd.to_numeric(...,
  errors="coerce")` (`none` = NaN from an unparseable cell) and by `FVal`
  (NaN / ±inf / finite) where IEEE division can produce infinities;
* `pandas.Series` comparisons with NaN are `False`, modelled by the `Bool`
  valued `oge / ogt / ole` on `Option ℚ`;
* `numpy.round` rounds half to even; `roundHalfEven` / `roundTo` model it
  over ℚ;
* `DataFrame.sort_values(col, ascending=False)` calls `nargsort`, which
  drops the NaN keys, reverses the remaining rows, argsorts them ascending,
  reverses the result and appends the NaN rows at the end.  The ascending
  kind is numpy's default quicksort, an introsort whose tie order is NOT
  specified in general (it degenerates to a stable insertion sort only on
  small arrays).  `sortValuesDesc` picks `List.insertionSort` as one
  admissible kind; no theorem below depends on the kind's tie order — the
  claims only use that the output is a permutation of the input (true of
  every argsort kind) and the sort's value on empty/singleton inputs.
-/

set_option maxHeartbeats 1000000

namespace RealorMap

/-- FVal models a pandas float cell in positions where IEEE division can
produce an infinity: NaN, -inf, +inf or a finite value (modelled by ℚ). -/
inductive FVal : Type
  | nan : FVal
  | ninf : FVal
  | pinf : FVal
  | fin : ℚ → FVal
deriving DecidableEq

/-- fvalIsNan models `pandas.isna` on an `FVal` (infinities are not NA). -/
def fvalIsNan : FVal → Bool
  | .nan => true
  | _ => false

/-- fvalLe is the key order used when sorting a float column: the usual
order with -inf at the bottom and +inf at the top.  NaN keys never reach
the comparison (pandas `nargsort` splits them off first); placing them at
the bottom merely makes the order total. -/
def fvalLe : FVal → FVal → Bool
  | .nan, _ => true
  | _, .nan => false
  | .ninf, _ => true
  | _, .ninf => false
  | .pinf, .pinf => true
  | .pinf, .fin _ => false
  | .fin _, .pinf => true
  | .fin p, .fin q => decide (p ≤ q)

/-- roundHalfEven rounds a rational to the nearest integer, ties to the
even neighbour, as `numpy.round` does. -/
def roundHalfEven (x : ℚ) : ℤ :=
  let n : ℤ := Int.floor x
  let r : ℚ := x - n
  if r < 1/2 then n
  else if 1/2 < r then n + 1
  else if n % 2 = 0 then n else n + 1

/-- roundTo models `Series.round(k)`: round half to even at `k` decimal
places. -/
def roundTo (k : ℕ) (x : ℚ) : ℚ := (roundHalfEven (x * 10 ^ k) : ℚ) / 10 ^ k

/-- fdiv models element-wise float division of two parsed (NaN-or-finite)
columns: NaN propagates, and division of a finite value by zero follows
IEEE semantics (`p / 0 = +inf` for `p > 0`, `-inf` for `p < 0`, NaN for
`0 / 0`). -/
def fdiv : Option ℚ → Option ℚ → FVal
  | some p, some a =>
    if a = 0 then
      if 0 < p then .pinf else if p < 0 then .ninf else .nan
    else .fin (p / a)
  | _, _ => .nan

/-- fround1 models `.round(1)` applied to the quotient column: finite
values are rounded half to even at one decimal, NaN and infinities pass
through. -/
def fround1 : FVal → FVal
  | .fin q => .fin (roundTo 1 q)
  | v => v

/-- Rec is one listing row as both apps see it right before distance
attachment: coordinates (floats straight from the CSV, modelled as reals)
and the parsed price (`価格(万円)` / `登録価格（万円）`) and land-area
(`土地面積(坪)`, already derived/rounded) columns, `none` marking a cell
`pd.to_numeric(..., errors="coerce")` turned into NaN. -/
structure Rec : Type where
  lat : ℝ
  lon : ℝ
  price : Option ℚ
  tsubo : Option ℚ

/-- unitPrice models the unit-price column `坪単価` computed by both apps:
`(price / tsubo).round(1)` (app.py line 159, app.mobile.py line 121). -/
def unitPrice (r : Rec) : FVal := fround1 (fdiv r.price r.tsubo)

/-- oge models the pandas comparison `column >= b`: `False` on NaN. -/
def oge (t : Option ℚ) (b : ℚ) : Bool :=
  match t with
  | some a => decide (b ≤ a)
  | none => false

/-- ogt models the pandas comparison `column > b`: `False` on NaN. -/
def ogt (t : Option ℚ) (b : ℚ) : Bool :=
  match t with
  | some a => decide (b < a)
  | none => false

/-- ole models the pandas comparison `column <= b`: `False` on NaN. -/
def ole (t : Option ℚ) (b : ℚ) : Bool :=
  match t with
  | some a => decide (a ≤ b)
  | none => false

/-- radians models Python's `math.radians`: degrees to radians. -/
noncomputable def radians (d : ℝ) : ℝ := d * (Real.pi / 180)

/-- atan2 models Python's `math.atan2 (y, x)`.  Only the `x > 0` and
`x = 0` branches are ever reached from `haversine` (both arguments are
square roots, hence nonnegative), but all branches are included. -/
noncomputable def atan2 (y x : ℝ) : ℝ :=
  if 0 < x then Real.arctan (y / x)
  else if x < 0 then
    if 0 ≤ y then Real.arctan (y / x) + Real.pi else Real.arctan (y / x) - Real.pi
  else
    if 0 < y then Real.pi / 2 else if y < 0 then -(Real.pi / 2) else 0

/-- haversineA is the intermediate `a` of both apps' `haversine`
(app.py line 69, app.mobile.py line 66):
`a = sin(dlat/2)**2 + cos(radians(lat1))*cos(radians(lat2))*sin(dlon/2)**2`. -/
noncomputable def haversineA (lat1 lon1 lat2 lon2 : ℝ) : ℝ :=
  Real.sin (radians (lat2 - lat1) / 2) ^ 2 +
    Real.cos (radians lat1) * Real.cos (radians lat2) *
      Real.sin (radians (lon2 - lon1) / 2) ^ 2

/-- haversine models both apps' `haversine` (app.py lines 65-70,
app.mobile.py lines 62-67): `2 * R * atan2(sqrt(a), sqrt(1 - a))` with
`R = 6371.0` km. -/
noncomputable def haversine (lat1 lon1 lat2 lon2 : ℝ) : ℝ :=
  2 * 6371.0 *
    atan2 (Real.sqrt (haversineA lat1 lon1 lat2 lon2))
      (Real.sqrt (1 - haversineA lat1 lon1 lat2 lon2))

open Classical in
/-- filterP is boolean-mask row selection `df[cond]`: it keeps, in order,
the rows satisfying the condition.  The condition may mention the real
valued distance column, so the predicate is a `Prop` and the definition is
classical. -/
noncomputable def filterP {α : Type} (p : α → Prop) : List α → List α
  | [] => []
  | x :: l => if p x then x :: filterP p l else filterP p l

/-- sortValuesDesc models `df.sort_values(col, ascending=False)` on a key
column, following pandas `nargsort`: NaN keys are split off and appended at
the end (`na_position="last"`), the remaining rows are reversed, argsorted
ascending and reversed back.  The ascending kind is numpy's default
quicksort, an introsort whose tie order is unspecified on 16 or more
elements; `List.insertionSort` stands in as one admissible kind, and the
theorems below use only kind-independent facts about this definition: the
output is a permutation of the input, and its value on empty and singleton
lists. -/
def sortValuesDesc {α : Type} (key : α → FVal) (l : List α) : List α :=
  let nonNans := l.filter (fun a => !fvalIsNan (key a))
  let nans := l.filter (fun a => fvalIsNan (key a))
  (List.insertionSort (fun a b => fvalLe (key a) (key b) = true) nonNans.reverse).reverse ++ nans

/-- attachDist models app.py line 172 / app.mobile.py lines 176-179: the
distance column computed row-wise by `haversine` from the geocoded center
and attached to each record. -/
noncomputable def attachDist (clat clon : ℝ) (data : List Rec) : List (Rec × ℝ) :=
  data.map (fun r => (r, haversine clat clon r.lat r.lon))

/-- condD is the desktop filter condition (app.py lines 181-187):
`(距離 <= radius) & (坪 >= tsubo_min) & (坪 > 30)`, strengthened with
`坪 <= tsubo_max` exactly when `tsubo_max < 500`. -/
def condD (radius : ℝ) (tmin tmax : ℚ) (x : Rec × ℝ) : Prop :=
  x.2 ≤ radius ∧ oge x.1.tsubo tmin = true ∧ ogt x.1.tsubo 30 = true ∧
    (tmax < 500 → ole x.1.tsubo tmax = true)

/-- searchD is the desktop pipeline from distance attachment to the
displayed table order (app.py lines 172-188): attach distances, keep the
rows passing `condD`, sort descending by the unit-price column. -/
noncomputable def searchD (clat clon radius : ℝ) (tmin tmax : ℚ) (data : List Rec) :
    List (Rec × ℝ) :=
  sortValuesDesc (fun x => unitPrice x.1)
    (filterP (condD radius tmin tmax) (attachDist clat clon data))

/-- preM is the mobile load-time exclusion (app.mobile.py line 144):
`_df = _df[_df["土地面積（坪）"] > 60]`. -/
def preM (data : List Rec) : List Rec := data.filter (fun r => ogt r.tsubo 60)

/-- condM is the mobile filter condition (app.mobile.py lines 180-182):
`(距離 <= radius_km) & (坪 >= min_t)`, strengthened with `坪 <= max_t`
exactly when `max_t < 500` (`MAX_TSUBO_UI = 500`). -/
def condM (radius : ℝ) (tmin tmax : ℚ) (x : Rec × ℝ) : Prop :=
  x.2 ≤ radius ∧ oge x.1.tsubo tmin = true ∧ (tmax < 500 → ole x.1.tsubo tmax = true)

/-- searchM is the mobile pipeline (app.mobile.py lines 144, 176-185):
load-time exclusion of listings of at most 60 tsubo, distance attachment,
the `cond` filter, and the descending unit-price sort. -/
noncomputable def searchM (clat clon radius : ℝ) (tmin tmax : ℚ) (data : List Rec) :
    List (Rec × ℝ) :=
  sortValuesDesc (fun x => unitPrice x.1)
    (filterP (condM radius tmin tmax) (attachDist clat clon (preM data)))

/-- desktopAreaCols models the desktop area-column derivation (app.py
lines 154-158).  The outer `Option` is column presence in the CSV, the
inner one a row's parsed value.  When the m² column is missing it is
derived as `坪 * 3.305785` (no rounding); when the tsubo column is missing
it is derived as `㎡ / 3.305785`; the tsubo column is then always rounded
to 2 decimals (line 158). -/
def desktopAreaCols (msqm mtsubo : Option (Option ℚ)) : Option ℚ × Option ℚ :=
  let sqm : Option ℚ :=
    match msqm with
    | some v => v
    | none => (mtsubo.getD none).map (fun t => t * 3.305785)
  let tsubo0 : Option ℚ :=
    match mtsubo with
    | some v => v
    | none => sqm.map (fun s => s / 3.305785)
  (sqm, tsubo0.map (fun t => roundTo 2 t))

/-- mobileDerivedTsubo models the mobile derivation (app.mobile.py line
108) used when only the m² column is present:
`(土地面積（㎡） / 3.305785).round(2)`. -/
def mobileDerivedTsubo (sqm : Option ℚ) : Option ℚ :=
  sqm.map (fun s => roundTo 2 (s / 3.305785))

/-! Concrete rows used by witnesses and counterexamples. -/

/-- recA is a well-formed listing: area 50 tsubo, price 1000. -/
def recA : Rec := ⟨0, 0, some 1000, some 50⟩

/-- recSmall is a listing of 20 tsubo (above no slider floor, below the
hard-coded 30-tsubo exclusion). -/
def recSmall : Rec := ⟨0, 0, some 100, some 20⟩

/-- recBad is a listing whose latitude 100 lies outside [-90, 90]; its
area of 80 tsubo clears the hard floors of both apps. -/
def recBad : Rec := ⟨100, 0, some 1000, some 80⟩

/-- recB is a well-formed listing large enough for the mobile app: area 80
tsubo, price 1000. -/
def recB : Rec := ⟨0, 0, some 1000, some 80⟩

/-- recZeroArea is a listing with a parsed land area of exactly 0 tsubo. -/
def recZeroArea : Rec := ⟨0, 0, some 1000, some 0⟩

/-- recNA is a listing whose area cell failed to parse (NaN). -/
def recNA : Rec := ⟨0, 0, some 500, none⟩

/-- recNoPrice is a listing whose price cell failed to parse (NaN). -/
def recNoPrice : Rec := ⟨0, 0, none, some 50⟩

/-! Helper lemmas about `filterP`. -/

theorem filterP_nil {α : Type} (p : α → Prop) : filterP p [] = [] := by
  simp only [filterP]

theorem filterP_cons_pos {α : Type} {p : α → Prop} {x : α} (h : p x) (l : List α) :
    filterP p (x :: l) = x :: filterP p l := by
  simp only [filterP]
  rw [if_pos h]

theorem filterP_cons_neg {α : Type} {p : α → Prop} {x : α} (h : ¬ p x) (l : List α) :
    filterP p (x :: l) = filterP p l := by
  simp only [filterP]
  rw [if_neg h]

theorem mem_filterP {α : Type} (p : α → Prop) (x : α) (l : List α) :
    x ∈ filterP p l ↔ x ∈ l ∧ p x := by
  induction l with
  | nil => simp [filterP_nil]
  | cons a l ih =>
    by_cases h : p a
    · rw [filterP_cons_pos h]
      simp only [List.mem_cons, ih]
      constructor
      · rintro (rfl | ⟨hm, hp⟩)
        · exact ⟨Or.inl rfl, h⟩
        · exact ⟨Or.inr hm, hp⟩
      · rintro ⟨rfl | hm, hp⟩
        · exact Or.inl rfl
        · exact Or.inr ⟨hm, hp⟩
    · rw [filterP_cons_neg h]
      simp only [List.mem_cons, ih]
      constructor
      · rintro ⟨hm, hp⟩
        exact ⟨Or.inr hm, hp⟩
      · rintro ⟨rfl | hm, hp⟩
        · exact absurd hp h
        · exact ⟨hm, hp⟩

theorem filterP_append {α : Type} (p : α → Prop) (l₁ l₂ : List α) :
    filterP p (l₁ ++ l₂) = filterP p l₁ ++ filterP p l₂ := by
  induction l₁ with
  | nil => simp [filterP_nil]
  | cons a l ih =>
    by_cases h : p a
    · rw [List.cons_append, filterP_cons_pos h, filterP_cons_pos h, ih, List.cons_append]
    · rw [List.cons_append, filterP_cons_neg h, filterP_cons_neg h, ih]

/-! Helper lemmas about the `FVal` key order. -/

/-! Helper lemmas about `sortValuesDesc`. -/

theorem sortValuesDesc_perm {α : Type} (key : α → FVal) (l : List α) :
    List.Perm (sortValuesDesc key l) l := by
  unfold sortValuesDesc
  have h1 : List.Perm
      ((List.insertionSort (fun a b => fvalLe (key a) (key b) = true)
        (l.filter (fun a => !fvalIsNan (key a))).reverse).reverse)
      (l.filter (fun a => !fvalIsNan (key a))) :=
    ((List.reverse_perm _).trans (List.perm_insertionSort _ _)).trans (List.reverse_perm _)
  have h2 : List.Perm
      (l.filter (fun a => !fvalIsNan (key a)) ++ l.filter (fun a => fvalIsNan (key a))) l := by
    have := List.filter_append_perm (fun a => !fvalIsNan (key a)) l
    simpa [Bool.not_not] using this
  exact (h1.append (List.Perm.refl _)).trans h2

theorem mem_sortValuesDesc {α : Type} (key : α → FVal) (l : List α) (x : α) :
    x ∈ sortValuesDesc key l ↔ x ∈ l :=
  (sortValuesDesc_perm key l).mem_iff

/-! Helper lemmas about membership in the two pipelines. -/

theorem mem_searchD {clat clon radius : ℝ} {tmin tmax : ℚ} {data : List Rec} {x : Rec × ℝ} :
    x ∈ searchD clat clon radius tmin tmax data ↔
      x ∈ attachDist clat clon data ∧ condD radius tmin tmax x := by
  unfold searchD
  rw [mem_sortValuesDesc, mem_filterP]

theorem mem_searchM {clat clon radius : ℝ} {tmin tmax : ℚ} {data : List Rec} {x : Rec × ℝ} :
    x ∈ searchM clat clon radius tmin tmax data ↔
      x ∈ attachDist clat clon (preM data) ∧ condM radius tmin tmax x := by
  unfold searchM
  rw [mem_sortValuesDesc, mem_filterP]

/-! Helper lemmas about `haversine`. -/

theorem haversineA_self (lat lon : ℝ) : haversineA lat lon lat lon = 0 := by
  simp [haversineA, radians]

theorem haversine_self (lat lon : ℝ) : haversine lat lon lat lon = 0 := by
  unfold haversine
  rw [haversineA_self]
  simp [atan2]

theorem radians_lt {a b : ℝ} (h : a < b) : radians a < radians b := by
  unfold radians
  have := Real.pi_pos
  apply mul_lt_mul_of_pos_right h
  positivity

theorem radians_90 : radians 90 = Real.pi / 2 := by
  unfold radians
  ring

theorem radians_neg90 : radians (-90) = -(Real.pi / 2) := by
  unfold radians
  ring

theorem cos_radians_pos {lat : ℝ} (h1 : -90 < lat) (h2 : lat < 90) :
    0 < Real.cos (radians lat) := by
  apply Real.cos_pos_of_mem_Ioo
  refine Set.mem_Ioo.mpr ⟨?_, ?_⟩
  · have := radians_lt h1
    rwa [radians_neg90] at this
  · have := radians_lt h2
    rwa [radians_90] at this

theorem haversineA_symm (lat1 lon1 lat2 lon2 : ℝ) :
    haversineA lat1 lon1 lat2 lon2 = haversineA lat2 lon2 lat1 lon1 := by
  unfold haversineA
  have h : ∀ p q : ℝ, Real.sin (radians (p - q) / 2) ^ 2 = Real.sin (radians (q - p) / 2) ^ 2 := by
    intro p q
    have he : radians (p - q) / 2 = -(radians (q - p) / 2) := by
      unfold radians
      ring
    rw [he, Real.sin_neg]
    ring
  rw [h lat2 lat1, h lon2 lon1]
  ring

theorem haversineA_le_one (lat1 lon1 lat2 lon2 : ℝ) : haversineA lat1 lon1 lat2 lon2 ≤ 1 := by
  unfold haversineA
  have hd : radians (lat2 - lat1) = radians lat2 - radians lat1 := by
    unfold radians
    ring
  rw [hd, Real.sin_sq_eq_half_sub]
  have h2 : 2 * ((radians lat2 - radians lat1) / 2) = radians lat2 - radians lat1 := by
    ring
  rw [h2, Real.cos_sub]
  set A := radians lat1
  set B := radians lat2
  set s := Real.sin (radians (lon2 - lon1) / 2) ^ 2 with hs
  have hs0 : 0 ≤ s := sq_nonneg _
  have hs1 : s ≤ 1 := Real.sin_sq_le_one _
  have hpq : Real.cos A * Real.cos B - Real.sin A * Real.sin B ≤ 1 := by
    have := Real.cos_le_one (A + B)
    rwa [Real.cos_add] at this
  have hqp : -1 ≤ Real.cos B * Real.cos A + Real.sin B * Real.sin A := by
    have := Real.neg_one_le_cos (B - A)
    rwa [Real.cos_sub] at this
  rcases le_or_lt 0 (Real.cos A * Real.cos B) with hp | hp
  · have hms : Real.cos A * Real.cos B * s ≤ Real.cos A * Real.cos B :=
      mul_le_of_le_one_right hp hs1
    nlinarith
  · have hms : Real.cos A * Real.cos B * s ≤ 0 :=
      mul_nonpos_of_nonpos_of_nonneg hp.le hs0
    nlinarith

theorem haversineA_nonneg {lat1 lat2 : ℝ} (lon1 lon2 : ℝ)
    (h1 : -90 < lat1) (h2 : lat1 < 90) (h3 : -90 < lat2) (h4 : lat2 < 90) :
    0 ≤ haversineA lat1 lon1 lat2 lon2 := by
  unfold haversineA
  have c1 := cos_radians_pos h1 h2
  have c2 := cos_radians_pos h3 h4
  exact add_nonneg (sq_nonneg _) (mul_nonneg (mul_nonneg c1.le c2.le) (sq_nonneg _))

theorem atan2_mem {y x : ℝ} (hy : 0 ≤ y) (hx : 0 ≤ x) :
    0 ≤ atan2 y x ∧ atan2 y x ≤ Real.pi / 2 := by
  unfold atan2
  rcases lt_or_eq_of_le hx with hx' | hx'
  · rw [if_pos hx']
    constructor
    · rw [← Real.arctan_zero]
      apply Real.arctan_strictMono.monotone
      positivity
    · exact (Real.arctan_lt_pi_div_two _).le
  · rw [if_neg (by rw [← hx']; exact lt_irrefl 0), if_neg (by rw [← hx']; exact lt_irrefl 0)]
    have hπ := Real.pi_pos
    rcases lt_or_eq_of_le hy with hy' | hy'
    · rw [if_pos hy']
      constructor <;> linarith
    · rw [if_neg (by rw [← hy']; exact lt_irrefl 0), if_neg (by rw [← hy']; exact lt_irrefl 0)]
      constructor <;> linarith

theorem atan2_eq_zero {y x : ℝ} (hy : 0 ≤ y) (hx : 0 ≤ x) (h : atan2 y x = 0) : y = 0 := by
  unfold atan2 at h
  rcases lt_or_eq_of_le hx with hx' | hx'
  · rw [if_pos hx'] at h
    have hq := Real.arctan_eq_zero_iff.mp h
    rcases div_eq_zero_iff.mp hq with h0 | h0
    · exact h0
    · exact absurd h0 hx'.ne'
  · rw [if_neg (by rw [← hx']; exact lt_irrefl 0), if_neg (by rw [← hx']; exact lt_irrefl 0)] at h
    by_contra hy0
    have hy' : 0 < y := lt_of_le_of_ne hy (Ne.symm hy0)
    rw [if_pos hy'] at h
    have := Real.pi_pos
    linarith

theorem haversine_symm (lat1 lon1 lat2 lon2 : ℝ) :
    haversine lat1 lon1 lat2 lon2 = haversine lat2 lon2 lat1 lon1 := by
  unfold haversine
  rw [haversineA_symm]

theorem haversine_nonneg_le (lat1 lon1 lat2 lon2 : ℝ) :
    0 ≤ haversine lat1 lon1 lat2 lon2 ∧
      haversine lat1 lon1 lat2 lon2 ≤ 2 * 6371.0 * (Real.pi / 2) := by
  unfold haversine
  have h := atan2_mem (Real.sqrt_nonneg (haversineA lat1 lon1 lat2 lon2))
    (Real.sqrt_nonneg (1 - haversineA lat1 lon1 lat2 lon2))
  constructor
  · nlinarith [h.1]
  · nlinarith [h.2]

theorem haversine_eq_zero_imp {lat1 lon1 lat2 lon2 : ℝ}
    (ha1 : -90 < lat1) (ha2 : lat1 < 90) (hb1 : -90 < lat2) (hb2 : lat2 < 90)
    (hlon : |lon1 - lon2| < 360)
    (h : haversine lat1 lon1 lat2 lon2 = 0) : lat1 = lat2 ∧ lon1 = lon2 := by
  have hπ := Real.pi_pos
  unfold haversine at h
  have hA : atan2 (Real.sqrt (haversineA lat1 lon1 lat2 lon2))
      (Real.sqrt (1 - haversineA lat1 lon1 lat2 lon2)) = 0 := by
    nlinarith [h]
  have hy := atan2_eq_zero (Real.sqrt_nonneg _) (Real.sqrt_nonneg _) hA
  have ha0 : haversineA lat1 lon1 lat2 lon2 ≤ 0 := Real.sqrt_eq_zero'.mp hy
  have hann := haversineA_nonneg lon1 lon2 ha1 ha2 hb1 hb2
  have haz : haversineA lat1 lon1 lat2 lon2 = 0 := le_antisymm ha0 hann
  unfold haversineA at haz
  have c1 := cos_radians_pos ha1 ha2
  have c2 := cos_radians_pos hb1 hb2
  have cc : 0 < Real.cos (radians lat1) * Real.cos (radians lat2) := mul_pos c1 c2
  have t1 : Real.sin (radians (lat2 - lat1) / 2) ^ 2 = 0 := by
    nlinarith [sq_nonneg (Real.sin (radians (lat2 - lat1) / 2)),
      mul_nonneg cc.le (sq_nonneg (Real.sin (radians (lon2 - lon1) / 2)))]
  have t2 : Real.sin (radians (lon2 - lon1) / 2) ^ 2 = 0 := by
    have hcc0 : Real.cos (radians lat1) * Real.cos (radians lat2) *
        Real.sin (radians (lon2 - lon1) / 2) ^ 2 = 0 := by
      linarith [t1, haz]
    rcases mul_eq_zero.mp hcc0 with h0 | h0
    · exact absurd h0 cc.ne'
    · exact h0
  have s1 : Real.sin (radians (lat2 - lat1) / 2) = 0 := sq_eq_zero_iff.mp t1
  have s2 : Real.sin (radians (lon2 - lon1) / 2) = 0 := sq_eq_zero_iff.mp t2
  have hlon' : -360 < lon2 - lon1 ∧ lon2 - lon1 < 360 := by
    have := abs_lt.mp hlon
    constructor <;> linarith [this.1, this.2]
  have hu1 : -Real.pi < radians (lat2 - lat1) / 2 := by
    unfold radians
    have hp1 : 0 < (lat2 - lat1 + 360) * Real.pi :=
      mul_pos (by linarith) hπ
    nlinarith [hp1]
  have hu2 : radians (lat2 - lat1) / 2 < Real.pi := by
    unfold radians
    have hp1 : 0 < (360 - (lat2 - lat1)) * Real.pi :=
      mul_pos (by linarith) hπ
    nlinarith [hp1]
  have hv1 : -Real.pi < radians (lon2 - lon1) / 2 := by
    unfold radians
    have hp1 : 0 < (lon2 - lon1 + 360) * Real.pi :=
      mul_pos (by linarith [hlon'.1]) hπ
    nlinarith [hp1]
  have hv2 : radians (lon2 - lon1) / 2 < Real.pi := by
    unfold radians
    have hp1 : 0 < (360 - (lon2 - lon1)) * Real.pi :=
      mul_pos (by linarith [hlon'.2]) hπ
    nlinarith [hp1]
  have e1 : radians (lat2 - lat1) / 2 = 0 := (Real.sin_eq_zero_iff_of_lt_of_lt hu1 hu2).mp s1
  have e2 : radians (lon2 - lon1) / 2 = 0 := (Real.sin_eq_zero_iff_of_lt_of_lt hv1 hv2).mp s2
  have d1 : lat2 - lat1 = 0 := by
    have e1' : (lat2 - lat1) * (Real.pi / 360) = 0 := by
      unfold radians at e1
      linear_combination e1
    rcases mul_eq_zero.mp e1' with h0 | h0
    · exact h0
    · linarith
  have d2 : lon2 - lon1 = 0 := by
    have e2' : (lon2 - lon1) * (Real.pi / 360) = 0 := by
      unfold radians at e2
      linear_combination e2
    rcases mul_eq_zero.mp e2' with h0 | h0
    · exact h0
    · linarith
  constructor <;> linarith

/-! Helper lemmas for evaluating the pipelines on concrete inputs, and for
translating the `Bool` column comparisons into explicit predicates. -/

theorem sortValuesDesc_nil {α : Type} (key : α → FVal) : sortValuesDesc key [] = [] := by
  simp [sortValuesDesc]

theorem sortValuesDesc_single {α : Type} (key : α → FVal) (x : α) :
    sortValuesDesc key [x] = [x] := by
  unfold sortValuesDesc
  cases h : fvalIsNan (key x)
  · simp [h, List.insertionSort, List.orderedInsert]
  · simp [h]

theorem oge_iff (t : Option ℚ) (b : ℚ) : oge t b = true ↔ ∃ a, t = some a ∧ b ≤ a := by
  cases t <;> simp [oge]

theorem ogt_iff (t : Option ℚ) (b : ℚ) : ogt t b = true ↔ ∃ a, t = some a ∧ b < a := by
  cases t <;> simp [ogt]

theorem areaCondD_iff (t : Option ℚ) (tmin tmax : ℚ) :
    (oge t tmin = true ∧ ogt t 30 = true ∧ (tmax < 500 → ole t tmax = true)) ↔
      ∃ a : ℚ, t = some a ∧ tmin ≤ a ∧ 30 < a ∧ (tmax < 500 → a ≤ tmax) := by
  cases t with
  | none => simp [oge, ogt, ole]
  | some a => simp [oge, ogt, ole]

theorem areaCondM_iff (t : Option ℚ) (tmin tmax : ℚ) :
    (ogt t 60 = true ∧ oge t tmin = true ∧ (tmax < 500 → ole t tmax = true)) ↔
      ∃ a : ℚ, t = some a ∧ 60 < a ∧ tmin ≤ a ∧ (tmax < 500 → a ≤ tmax) := by
  cases t with
  | none => simp [oge, ogt, ole]
  | some a => simp [oge, ogt, ole]

theorem mem_attachDist_preM {clat clon : ℝ} {data : List Rec} {x : Rec × ℝ} :
    x ∈ attachDist clat clon (preM data) ↔
      x ∈ attachDist clat clon data ∧ ogt x.1.tsubo 60 = true := by
  unfold attachDist preM
  simp only [List.mem_map, List.mem_filter]
  constructor
  · rintro ⟨r, ⟨hr, hq⟩, rfl⟩
    exact ⟨⟨r, hr, rfl⟩, hq⟩
  · rintro ⟨⟨r, hr, rfl⟩, hq⟩
    exact ⟨r, ⟨hr, hq⟩, rfl⟩

theorem searchD_singleton_pos (clat clon radius : ℝ) (tmin tmax : ℚ) (r : Rec)
    (hlat : r.lat = clat) (hlon : r.lon = clon) (hrad : 0 ≤ radius)
    (ha : oge r.tsubo tmin = true) (hb : ogt r.tsubo 30 = true)
    (hc : tmax < 500 → ole r.tsubo tmax = true) :
    searchD clat clon radius tmin tmax [r] = [(r, 0)] := by
  unfold searchD
  have h1 : attachDist clat clon [r] = [(r, (0:ℝ))] := by
    unfold attachDist
    rw [List.map_cons, List.map_nil, hlat, hlon, haversine_self]
  rw [h1, filterP_cons_pos ⟨hrad, ha, hb, hc⟩, filterP_nil, sortValuesDesc_single]

theorem searchM_singleton_pos (clat clon radius : ℝ) (tmin tmax : ℚ) (r : Rec)
    (hlat : r.lat = clat) (hlon : r.lon = clon) (hrad : 0 ≤ radius)
    (hm : ogt r.tsubo 60 = true) (ha : oge r.tsubo tmin = true)
    (hc : tmax < 500 → ole r.tsubo tmax = true) :
    searchM clat clon radius tmin tmax [r] = [(r, 0)] := by
  unfold searchM
  have h0 : preM [r] = [r] := by
    unfold preM
    rw [List.filter_cons]
    simp [hm]
  rw [h0]
  have h1 : attachDist clat clon [r] = [(r, (0:ℝ))] := by
    unfold attachDist
    rw [List.map_cons, List.map_nil, hlat, hlon, haversine_self]
  rw [h1, filterP_cons_pos ⟨hrad, ha, hc⟩, filterP_nil, sortValuesDesc_single]

/-! Claim theorems. -/

/-- C1 counterexample: with the area slider at its full range (0, 500) and
the search center on the listing itself, `recSmall` (area 20 tsubo,
distance 0 ≤ radius 2, 0 ≤ 20 ≤ 500) satisfies every predicate of the
claimed filter contract, yet the desktop filter output is empty — the
hard-coded `土地面積(坪) > 30` conjunct (app.py line 184) removes it, so
the output is not "exactly" the claimed subset. -/
theorem c1_counterexample :
    searchD 0 0 2 0 500 [recSmall] = [] ∧
      haversine 0 0 recSmall.lat recSmall.lon ≤ 2 ∧
      recSmall.tsubo = some 20 ∧ (0:ℚ) ≤ 20 ∧ (20:ℚ) ≤ 500 := by
  refine ⟨?_, ?_, rfl, by norm_num, by norm_num⟩
  · unfold searchD
    have h1 : attachDist 0 0 [recSmall] = [(recSmall, (0:ℝ))] := by
      unfold attachDist
      rw [List.map_cons, List.map_nil, show recSmall.lat = 0 from rfl,
        show recSmall.lon = 0 from rfl, haversine_self]
    rw [h1, filterP_cons_neg ?hneg, filterP_nil, sortValuesDesc_nil]
    case hneg =>
      intro hc
      exact absurd hc.2.2.1 (by decide)
  · rw [show recSmall.lat = (0:ℝ) from rfl, show recSmall.lon = (0:ℝ) from rfl,
      haversine_self]
    norm_num

/-- C1 (amended): the record filters return exactly the subset of
distance-attached listings satisfying distance ≤ radius and area within
[min, max] (max = 500 bypassing the upper check) and, additionally, the
hard-coded area floor: area > 30 tsubo on desktop, area > 60 tsubo on
mobile. -/
theorem c1_theorem (clat clon radius : ℝ) (tmin tmax : ℚ) (data : List Rec) (x : Rec × ℝ) :
    (x ∈ searchD clat clon radius tmin tmax data ↔
      x ∈ attachDist clat clon data ∧ x.2 ≤ radius ∧
        ∃ a : ℚ, x.1.tsubo = some a ∧ tmin ≤ a ∧ 30 < a ∧ (tmax < 500 → a ≤ tmax)) ∧
    (x ∈ searchM clat clon radius tmin tmax data ↔
      x ∈ attachDist clat clon data ∧ x.2 ≤ radius ∧
        ∃ a : ℚ, x.1.tsubo = some a ∧ 60 < a ∧ tmin ≤ a ∧ (tmax < 500 → a ≤ tmax)) := by
  constructor
  · rw [mem_searchD]
    unfold condD
    rw [← areaCondD_iff]
  · rw [mem_searchM, mem_attachDist_preM]
    unfold condM
    rw [← areaCondM_iff]
    tauto

/-- C2: soundness of both filters — every returned listing satisfies
distance ≤ radius and area ≥ min, with area ≤ max unless max is the
sentinel 500.  The hypothesis `tmax ≤ 500` reflects the slider range
(0–500); the code's sentinel check is `tsubo_max < 500`. -/
theorem c2_theorem (clat clon radius : ℝ) (tmin tmax : ℚ) (data : List Rec) (x : Rec × ℝ)
    (hmax : tmax ≤ 500) :
    (x ∈ searchD clat clon radius tmin tmax data →
      x.2 ≤ radius ∧ ∃ a : ℚ, x.1.tsubo = some a ∧ tmin ≤ a ∧ (tmax = 500 ∨ a ≤ tmax)) ∧
    (x ∈ searchM clat clon radius tmin tmax data →
      x.2 ≤ radius ∧ ∃ a : ℚ, x.1.tsubo = some a ∧ tmin ≤ a ∧ (tmax = 500 ∨ a ≤ tmax)) := by
  constructor
  · intro hm
    have h := (mem_searchD.mp hm).2
    unfold condD at h
    obtain ⟨hd, hg, ho, hi⟩ := h
    obtain ⟨a, ht, h1, _, h4⟩ := (areaCondD_iff _ _ _).mp ⟨hg, ho, hi⟩
    refine ⟨hd, a, ht, h1, ?_⟩
    rcases lt_or_eq_of_le hmax with hlt | heq
    · exact Or.inr (h4 hlt)
    · exact Or.inl heq
  · intro hm
    have h := mem_searchM.mp hm
    have hg60 := (mem_attachDist_preM.mp h.1).2
    have hc := h.2
    unfold condM at hc
    obtain ⟨hd, hg, hi⟩ := hc
    obtain ⟨a, ht, _, h1, h4⟩ := (areaCondM_iff _ _ _).mp ⟨hg60, hg, hi⟩
    refine ⟨hd, a, ht, h1, ?_⟩
    rcases lt_or_eq_of_le hmax with hlt | heq
    · exact Or.inr (h4 hlt)
    · exact Or.inl heq

/-- C2 witness: the soundness theorem instantiated on singleton datasets
containing `recA` (desktop) and `recB` (mobile) at the search center with
radius 2 and the slider at (0, 500). -/
theorem c2_witness :
    ((recA, (0:ℝ)).2 ≤ 2 ∧
      ∃ a : ℚ, (recA, (0:ℝ)).1.tsubo = some a ∧ 0 ≤ a ∧ ((500:ℚ) = 500 ∨ a ≤ 500)) ∧
    ((recB, (0:ℝ)).2 ≤ 2 ∧
      ∃ a : ℚ, (recB, (0:ℝ)).1.tsubo = some a ∧ 0 ≤ a ∧ ((500:ℚ) = 500 ∨ a ≤ 500)) := by
  constructor
  · refine (c2_theorem 0 0 2 0 500 [recA] (recA, 0) (by norm_num)).1 ?_
    rw [searchD_singleton_pos 0 0 2 0 500 recA rfl rfl (by norm_num) (by decide) (by decide)
      (fun h => absurd h (by norm_num))]
    exact List.mem_singleton.mpr rfl
  · refine (c2_theorem 0 0 2 0 500 [recB] (recB, 0) (by norm_num)).2 ?_
    rw [searchM_singleton_pos 0 0 2 0 500 recB rfl rfl (by norm_num) (by decide) (by decide)
      (fun h => absurd h (by norm_num))]
    exact List.mem_singleton.mpr rfl

/-- C3: every listing in the desktop filtered result has land area
strictly greater than 30 tsubo, and every listing in the mobile result has
land area strictly greater than 60 tsubo, for every choice of the slider
parameters. -/
theorem c3_theorem (clat clon radius : ℝ) (tmin tmax : ℚ) (data : List Rec) (x : Rec × ℝ) :
    (x ∈ searchD clat clon radius tmin tmax data → ∃ a : ℚ, x.1.tsubo = some a ∧ 30 < a) ∧
    (x ∈ searchM clat clon radius tmin tmax data → ∃ a : ℚ, x.1.tsubo = some a ∧ 60 < a) := by
  constructor
  · intro hm
    have h := (mem_searchD.mp hm).2
    unfold condD at h
    exact (ogt_iff _ _).mp h.2.2.1
  · intro hm
    have h := (mem_searchM.mp hm).1
    exact (ogt_iff _ _).mp (mem_attachDist_preM.mp h).2

/-- C3 witness: the hard-floor theorem instantiated on singleton datasets
containing `recA` (desktop, area 50) and `recB` (mobile, area 80). -/
theorem c3_witness :
    (∃ a : ℚ, (recA, (0:ℝ)).1.tsubo = some a ∧ 30 < a) ∧
    (∃ a : ℚ, (recB, (0:ℝ)).1.tsubo = some a ∧ 60 < a) := by
  constructor
  · refine (c3_theorem 0 0 2 0 500 [recA] (recA, 0)).1 ?_
    rw [searchD_singleton_pos 0 0 2 0 500 recA rfl rfl (by norm_num) (by decide) (by decide)
      (fun h => absurd h (by norm_num))]
    exact List.mem_singleton.mpr rfl
  · refine (c3_theorem 0 0 2 0 500 [recB] (recB, 0)).2 ?_
    rw [searchM_singleton_pos 0 0 2 0 500 recB rfl rfl (by norm_num) (by decide) (by decide)
      (fun h => absurd h (by norm_num))]
    exact List.mem_singleton.mpr rfl

/-- C5 counterexample: a listing with parsed price 1000 and parsed area
exactly 0 gets unit price +inf (pandas float division of a positive price
by zero), not the null value the claim asserts for zero area. -/
theorem c5_counterexample :
    unitPrice recZeroArea = FVal.pinf ∧ FVal.pinf ≠ FVal.nan := by
  constructor
  · rfl
  · decide

/-- C5 (amended): for parsed price p and area a > 0 the unit price is
`round1(p / a)`; it is null when the area or the price is missing; but for
area exactly 0 it follows IEEE division (+inf for p > 0, -inf for p < 0,
null only for 0/0), not null as claimed. -/
theorem c5_theorem (p a : ℚ) (lat lon : ℝ) (h : 0 < a) :
    unitPrice ⟨lat, lon, some p, some a⟩ = FVal.fin (roundTo 1 (p / a)) ∧
    (∀ po : Option ℚ, unitPrice ⟨lat, lon, po, none⟩ = FVal.nan) ∧
    unitPrice ⟨lat, lon, none, some a⟩ = FVal.nan ∧
    (0 < p → unitPrice ⟨lat, lon, some p, some 0⟩ = FVal.pinf) ∧
    (p < 0 → unitPrice ⟨lat, lon, some p, some 0⟩ = FVal.ninf) ∧
    unitPrice ⟨lat, lon, some 0, some 0⟩ = FVal.nan := by
  refine ⟨?_, ?_, ?_, ?_, ?_, ?_⟩
  · show fround1 (fdiv (some p) (some a)) = FVal.fin (roundTo 1 (p / a))
    simp only [fdiv]
    rw [if_neg h.ne']
    rfl
  · intro po
    cases po <;> rfl
  · rfl
  · intro hp
    show fround1 (fdiv (some p) (some 0)) = FVal.pinf
    simp only [fdiv]
    rw [if_pos trivial, if_pos hp]
    rfl
  · intro hp
    show fround1 (fdiv (some p) (some 0)) = FVal.ninf
    simp only [fdiv]
    rw [if_pos trivial, if_neg (asymm hp), if_pos hp]
    rfl
  · rfl

/-- C5 witness: the amended unit-price theorem applied at price 1000 and
area 50 (unit price 20.0), together with the zero-area infinity case. -/
theorem c5_witness :
    unitPrice ⟨0, 0, some 1000, some 50⟩ = FVal.fin (roundTo 1 (1000 / 50)) ∧
    unitPrice ⟨0, 0, some 1000, some 0⟩ = FVal.pinf :=
  ⟨(c5_theorem 1000 50 0 0 (by norm_num)).1,
    (c5_theorem 1000 50 0 0 (by norm_num)).2.2.2.1 (by norm_num)⟩

/-- C6 counterexample: with both points at latitude 90 but longitudes 0
and 90, the haversine result is 0 although the two coordinate pairs are
not identical — "zero only when the two points are identical" fails at the
poles (and similarly for longitudes 360 apart). -/
theorem c6_counterexample :
    haversine 90 0 90 90 = 0 ∧ ¬((90:ℝ) = 90 ∧ (0:ℝ) = 90) := by
  constructor
  · have hA : haversineA 90 0 90 90 = 0 := by
      unfold haversineA
      have h0 : radians (90 - 90 : ℝ) / 2 = 0 := by
        unfold radians
        norm_num
      have h1 : Real.cos (radians 90) = 0 := by
        rw [radians_90, Real.cos_pi_div_two]
      rw [h0, h1]
      simp
    unfold haversine
    rw [hA]
    simp [atan2]
  · intro hc
    have := hc.2
    norm_num at this

/-- C6 (amended): haversine is symmetric and zero on identical inputs;
the converse "zero only if identical" holds under the input ranges that
exclude the poles and longitude wrap-around: both latitudes strictly
inside (-90, 90) and the longitude difference strictly less than 360
degrees in absolute value. -/
theorem c6_theorem :
    (∀ lat1 lon1 lat2 lon2 : ℝ,
      haversine lat1 lon1 lat2 lon2 = haversine lat2 lon2 lat1 lon1) ∧
    (∀ lat lon : ℝ, haversine lat lon lat lon = 0) ∧
    (∀ lat1 lon1 lat2 lon2 : ℝ, -90 < lat1 → lat1 < 90 → -90 < lat2 → lat2 < 90 →
      |lon1 - lon2| < 360 → haversine lat1 lon1 lat2 lon2 = 0 →
        lat1 = lat2 ∧ lon1 = lon2) :=
  ⟨haversine_symm, haversine_self,
    fun _ _ _ _ ha1 ha2 hb1 hb2 hl h => haversine_eq_zero_imp ha1 ha2 hb1 hb2 hl h⟩

/-- C6 witness: the amended theorem instantiated at the in-range point
(0, 0) against itself, using its own self-zero part to discharge the
distance-zero hypothesis. -/
theorem c6_witness : (0:ℝ) = 0 ∧ (0:ℝ) = 0 :=
  c6_theorem.2.2 0 0 0 0 (by norm_num) (by norm_num) (by norm_num) (by norm_num)
    (by norm_num) (c6_theorem.2.1 0 0)

/-- C7: totality of haversine over the reals — the argument `1 - a` of the
second square root is never negative (for any real inputs, including
antipodal points), and the result is pinned to the finite interval
[0, 2·R·(π/2)] = [0, πR]. -/
theorem c7_theorem (lat1 lon1 lat2 lon2 : ℝ) :
    0 ≤ 1 - haversineA lat1 lon1 lat2 lon2 ∧
    0 ≤ haversine lat1 lon1 lat2 lon2 ∧
    haversine lat1 lon1 lat2 lon2 ≤ 2 * 6371.0 * (Real.pi / 2) := by
  refine ⟨?_, (haversine_nonneg_le lat1 lon1 lat2 lon2).1,
    (haversine_nonneg_le lat1 lon1 lat2 lon2).2⟩
  have := haversineA_le_one lat1 lon1 lat2 lon2
  linarith

/-- C8 counterexample: `recBad` has latitude 100, outside [-90, 90], yet
it appears in the desktop filtered result for a search centered on it —
neither app drops records with out-of-range coordinates before
filtering. -/
theorem c8_counterexample :
    (recBad, (0:ℝ)) ∈ searchD 100 0 2 0 500 [recBad] ∧
      recBad.lat = 100 ∧ ¬(recBad.lat ≤ 90) := by
  refine ⟨?_, rfl, ?_⟩
  · rw [searchD_singleton_pos 100 0 2 0 500 recBad rfl rfl (by norm_num) (by decide)
      (by decide) (fun h => absurd h (by norm_num))]
    exact List.mem_singleton.mpr rfl
  · rw [show recBad.lat = (100:ℝ) from rfl]
    norm_num

/-- C8 (amended): no coordinate-range validation is performed in either
app: a record whose latitude is outside [-90, 90] or whose longitude is
outside [-180, 180] is NOT dropped — whenever it satisfies a pipeline's
distance and area conditions it appears in that pipeline's filtered result
(the out-of-range hypothesis plays no role in either filter). -/
theorem c8_theorem (clat clon radius : ℝ) (tmin tmax : ℚ) (data : List Rec) (r : Rec)
    (_hout : ¬(-90 ≤ r.lat ∧ r.lat ≤ 90) ∨ ¬(-180 ≤ r.lon ∧ r.lon ≤ 180))
    (hmem : r ∈ data) (hdist : haversine clat clon r.lat r.lon ≤ radius)
    (ha : oge r.tsubo tmin = true) (hc : tmax < 500 → ole r.tsubo tmax = true) :
    (ogt r.tsubo 30 = true →
      (r, haversine clat clon r.lat r.lon) ∈ searchD clat clon radius tmin tmax data) ∧
    (ogt r.tsubo 60 = true →
      (r, haversine clat clon r.lat r.lon) ∈ searchM clat clon radius tmin tmax data) := by
  constructor
  · intro hb
    rw [mem_searchD]
    refine ⟨?_, hdist, ha, hb, hc⟩
    unfold attachDist
    exact List.mem_map.mpr ⟨r, hmem, rfl⟩
  · intro hb
    rw [mem_searchM]
    refine ⟨?_, hdist, ha, hc⟩
    unfold attachDist preM
    exact List.mem_map.mpr ⟨r, List.mem_filter.mpr ⟨hmem, hb⟩, rfl⟩

/-- C8 witness: the amended theorem applied to `recBad` (latitude 100,
area 80 tsubo) on singleton datasets for both pipelines, with the search
center on the record. -/
theorem c8_witness :
    (recBad, haversine 100 0 recBad.lat recBad.lon) ∈ searchD 100 0 2 0 500 [recBad] ∧
    (recBad, haversine 100 0 recBad.lat recBad.lon) ∈ searchM 100 0 2 0 500 [recBad] := by
  have h := c8_theorem 100 0 2 0 500 [recBad] recBad
    (by
      left
      intro hcon
      have h2 := hcon.2
      rw [show recBad.lat = (100:ℝ) from rfl] at h2
      norm_num at h2)
    (List.mem_singleton.mpr rfl)
    (by
      rw [show recBad.lat = (100:ℝ) from rfl, show recBad.lon = (0:ℝ) from rfl,
        haversine_self]
      norm_num)
    (by decide)
    (fun hlt => absurd hlt (by norm_num))
  exact ⟨h.1 (by decide), h.2 (by decide)⟩

/-- C9 counterexample: desktop input with only the tsubo column present
and a row value of 10.1 tsubo: the derived m² value is 10.1 × 3.305785 =
33.3884285, which is not rounded to two decimal places (rounding would
give 33.39) — app.py line 155 multiplies without `.round(2)`. -/
theorem c9_counterexample :
    (desktopAreaCols none (some (some (101/10)))).1 = some (101/10 * 3.305785) ∧
      roundTo 2 (101/10 * 3.305785) ≠ 101/10 * 3.305785 := by
  constructor
  · rfl
  · have hfl : (⌊(101 / 10 * 3.305785 * 10 ^ 2 : ℚ)⌋ : ℤ) = 3338 := by
      norm_num
    simp only [roundTo, roundHalfEven, hfl]
    rw [if_neg (by norm_num), if_pos (by norm_num)]
    norm_num

/-- C9 (amended): with only the m² column present, the derived tsubo
column is `㎡ / 3.305785` rounded to two decimals in both apps; with only
the tsubo column present (desktop), the derived m² column is exactly
`坪 × 3.305785` with no rounding — dividing it back recovers the original
value exactly — while the tsubo column itself is rounded to two decimals
(app.py line 158). -/
theorem c9_theorem (t s : ℚ) :
    (desktopAreaCols none (some (some t))).1 = some (t * 3.305785) ∧
    ((desktopAreaCols none (some (some t))).1).map (fun x => x / 3.305785) = some t ∧
    (desktopAreaCols none (some (some t))).2 = some (roundTo 2 t) ∧
    (desktopAreaCols (some (some s)) none).2 = some (roundTo 2 (s / 3.305785)) ∧
    (desktopAreaCols (some (some s)) none).1 = some s ∧
    mobileDerivedTsubo (some s) = some (roundTo 2 (s / 3.305785)) := by
  refine ⟨rfl, ?_, rfl, rfl, rfl, rfl⟩
  have h3 : (3.305785:ℚ) ≠ 0 := by norm_num
  show some (t * 3.305785 / 3.305785) = some t
  rw [mul_div_cancel_right₀ t h3]

/-- C10 counterexample: `recNoPrice` has an unparseable price (NaN) but a
valid area of 50 tsubo; the claim says a listing with an unparseable price
is absent from the filtered results, yet the desktop filter (which never
consults the price) returns it — with a NaN unit price it is merely placed
last in the sort. -/
theorem c10_counterexample :
    searchD 0 0 2 0 500 [recNoPrice] = [(recNoPrice, 0)] ∧ recNoPrice.price = none := by
  refine ⟨?_, rfl⟩
  rw [searchD_singleton_pos 0 0 2 0 500 recNoPrice rfl rfl (by norm_num) (by decide)
    (by decide) (fun h => absurd h (by norm_num))]

/-- C10 (amended): a listing whose AREA fails to parse (NaN) is absent
from both filtered results, and removing such a listing from the dataset
leaves either result unchanged — all other listings are processed
normally and nothing aborts.  A listing whose PRICE fails to parse is,
however, not excluded (see the counterexample). -/
theorem c10_theorem :
    (∀ (clat clon radius : ℝ) (tmin tmax : ℚ) (data : List Rec) (x : Rec × ℝ),
      x ∈ searchD clat clon radius tmin tmax data → x.1.tsubo ≠ none) ∧
    (∀ (clat clon radius : ℝ) (tmin tmax : ℚ) (data : List Rec) (x : Rec × ℝ),
      x ∈ searchM clat clon radius tmin tmax data → x.1.tsubo ≠ none) ∧
    (∀ (clat clon radius : ℝ) (tmin tmax : ℚ) (pre post : List Rec) (bad : Rec),
      bad.tsubo = none →
        searchD clat clon radius tmin tmax (pre ++ bad :: post) =
          searchD clat clon radius tmin tmax (pre ++ post)) ∧
    (∀ (clat clon radius : ℝ) (tmin tmax : ℚ) (pre post : List Rec) (bad : Rec),
      bad.tsubo = none →
        searchM clat clon radius tmin tmax (pre ++ bad :: post) =
          searchM clat clon radius tmin tmax (pre ++ post)) := by
  refine ⟨?_, ?_, ?_, ?_⟩
  · intro clat clon radius tmin tmax data x hm
    have h := (mem_searchD.mp hm).2
    unfold condD at h
    obtain ⟨a, ht, -⟩ := (oge_iff _ _).mp h.2.1
    rw [ht]
    simp
  · intro clat clon radius tmin tmax data x hm
    have h := (mem_searchM.mp hm).2
    unfold condM at h
    obtain ⟨a, ht, -⟩ := (oge_iff _ _).mp h.2.1
    rw [ht]
    simp
  · intro clat clon radius tmin tmax pre post bad hb
    unfold searchD attachDist
    rw [List.map_append, List.map_append, List.map_cons, filterP_append, filterP_append,
      filterP_cons_neg ?hbad]
    case hbad =>
      intro hcond
      have hq := hcond.2.1
      rw [hb] at hq
      simp [oge] at hq
  · intro clat clon radius tmin tmax pre post bad hb
    unfold searchM preM
    rw [List.filter_append, List.filter_append, List.filter_cons, hb]
    simp [ogt]

/-- C10 witness: the amended theorem instantiated on `recA` (valid row in
the output, hence parsed area) and on the dataset `[recA, recNA]`, whose
result equals that of `[recA]` alone. -/
theorem c10_witness :
    (recA, (0:ℝ)).1.tsubo ≠ none ∧
    searchD 0 0 2 0 500 ([recA] ++ recNA :: []) = searchD 0 0 2 0 500 ([recA] ++ []) := by
  constructor
  · refine c10_theorem.1 0 0 2 0 500 [recA] (recA, 0) ?_
    rw [searchD_singleton_pos 0 0 2 0 500 recA rfl rfl (by norm_num) (by decide) (by decide)
      (fun h => absurd h (by norm_num))]
    exact List.mem_singleton.mpr rfl
  · exact c10_theorem.2.2.1 0 0 2 0 500 [recA] [] recNA rfl

end RealorMap
